import Mathlib

/-!
Verification of the template-generation repository against its
natural-language specification.

The repository is glue code around a third-party templating library plus a
few pure helper functions (filters, truncation, product-list handlers).
Pure helpers are embedded directly from the source files
(src/app.py, src/simple_app.py, src/chapters/chapter2/examples/jinja2-example.py).
The rendering engine itself is a third-party library not present in the
repository, so the renderer facade is modelled from the specification of
it (section 4.1 of the spec): a template is a sequence of nodes (literal
text, variable placeholders, the wall-clock global), a context is a finite
map of string bindings, and rendering resolves each node left to right
under a missing-variable policy fixed at configuration time.
-/

namespace TemplateGen

/-- Modelled from the spec: a parsed template node of the renderer facade.
The rendering library is not part of the repository sources; the spec
describes templates as immutable text with named placeholders, and the
repository additionally registers a wall-clock global used inside
templates, modelled by the dedicated clock node. -/
inductive Node where
  | text (s : String)
  | var (name : String)
  | clock
deriving DecidableEq, Repr

/-- Modelled from the spec: a context is a mapping from variable name to
value, supplied fresh per render call; modelled as an association list of
string bindings. -/
abbrev Ctx := List (String × String)

/-- Look up a variable binding in a context. -/
def lookupVar (ctx : Ctx) (n : String) : Option String :=
  match ctx with
  | [] => none
  | (k, v) :: rest => if k = n then some v else lookupVar rest n

/-- Modelled from the spec: the missing-variable policy chosen at
configuration time, either raising an undefined-variable error or
substituting an empty value. -/
inductive Policy where
  | strict
  | lenient
deriving DecidableEq, Repr

/-- Modelled from the spec: the render-time error for a context that omits
a referenced name. -/
inductive RenderError where
  | undefinedVariable (name : String)
deriving DecidableEq, Repr

/-- Render a single node under a policy, a context and a clock value. -/
def renderNode (p : Policy) (ctx : Ctx) (clk : String) : Node → Except RenderError String
  | .text s => .ok s
  | .var n =>
      match lookupVar ctx n with
      | some v => .ok v
      | none =>
          match p with
          | .strict => .error (.undefinedVariable n)
          | .lenient => .ok ""
  | .clock => .ok clk

/-- Modelled from the spec: the renderer facade. Renders a template (a
sequence of nodes) left to right, concatenating the rendered pieces, and
fails with the first undefined-variable error under the strict policy. -/
def render (p : Policy) (ctx : Ctx) (clk : String) : List Node → Except RenderError String
  | [] => .ok ""
  | n :: rest =>
      match renderNode p ctx clk n, render p ctx clk rest with
      | .ok h, .ok t => .ok (h ++ t)
      | .error e, _ => .error e
      | .ok _, .error e => .error e

/-- Sequential composition of two render results: concatenate on success,
propagate the first error. -/
def combineResults (a b : Except RenderError String) : Except RenderError String :=
  match a, b with
  | .ok x, .ok y => .ok (x ++ y)
  | .error e, _ => .error e
  | .ok _, .error e => .error e

/-- A pattern occurs inside a character list when the list splits around it. -/
def occursIn (pat l : List Char) : Prop :=
  ∃ s t, l = s ++ pat ++ t

/-- A string is free of template-syntax delimiter characters. -/
def delimFree (l : List Char) : Bool :=
  l.all fun c => !(c == '{' || c == '}' || c == '%')

/-- No residual template syntax: none of the four delimiter pairs occurs. -/
def noResidual (l : List Char) : Prop :=
  ¬ occursIn ['{', '{'] l ∧ ¬ occursIn ['}', '}'] l ∧
    ¬ occursIn ['{', '%'] l ∧ ¬ occursIn ['%', '}'] l

/-- Modelled from the spec: an item of a parent template for inheritance,
either literal text or a named block with the parent fallback content. -/
inductive Item where
  | lit (s : String)
  | block (name : String) (fallback : String)
deriving DecidableEq, Repr

/-- Modelled from the spec: block resolution is child-wins with fallback to
the parent content for blocks the child does not override. -/
def resolveBlock (ov : String → Option String) (n fallback : String) : String :=
  (ov n).getD fallback

/-- Modelled from the spec: render a child template extending a parent: each
parent item is emitted in order, blocks resolved through the child
overrides. -/
def renderChild (ov : String → Option String) : List Item → String
  | [] => ""
  | .lit s :: rest => s ++ renderChild ov rest
  | .block n d :: rest => resolveBlock ov n d ++ renderChild ov rest

end TemplateGen

namespace FlaskApp

/-- A product record, embedded from the PRODUCTS sample data of src/app.py. -/
structure Product where
  id : Nat
  name : String
  price : ℚ
  category : String
  description : String
  in_stock : Bool
  rating : ℚ
deriving DecidableEq, Repr

/-- The PRODUCTS list of src/app.py (three sample products). -/
def PRODUCTS : List Product :=
  [ { id := 1, name := "Wireless Headphones", price := 199.99, category := "Electronics",
      description := "Premium wireless headphones with noise cancellation",
      in_stock := true, rating := 4.5 },
    { id := 2, name := "Ergonomic Chair", price := 399.99, category := "Furniture",
      description := "Comfortable ergonomic office chair",
      in_stock := true, rating := 4.8 },
    { id := 3, name := "Coffee Maker", price := 89.99, category := "Appliances",
      description := "Programmable coffee maker with thermal carafe",
      in_stock := false, rating := 4.2 } ]

/-- ASCII lower-casing of a string, embedding the str.lower calls of
src/app.py line 49 (all category data is ASCII). -/
def pyLower (s : String) : String :=
  String.mk (s.data.map Char.toLower)

/-- Truthiness of an optional query parameter, as Python evaluates the
condition at src/app.py line 48: an absent parameter and the empty string
are both falsy. -/
def truthy : Option String → Bool
  | none => false
  | some s => !(s == "")

/-- The JSON payload shape returned by the products endpoint of
src/app.py lines 53-57. -/
structure ApiResponse where
  status : String
  count : Nat
  data : List Product
deriving DecidableEq, Repr

/-- The get_products handler of src/app.py lines 44-57: filter by
case-insensitive category when the parameter is truthy, otherwise return
the full list, with count set to the length of the returned data. -/
def get_products (category : Option String) : ApiResponse :=
  let filtered :=
    if truthy category then
      PRODUCTS.filter fun p => pyLower p.category == pyLower (category.getD "")
    else PRODUCTS
  { status := "success", count := filtered.length, data := filtered }

/-- The body of an HTML response: the rendered template pages of app.py,
abstracted by the context each template receives (the template files are
not part of the sources). -/
inductive PageBody where
  | productPage (p : Product)
  | notFoundPage
  | indexPage (products : List Product)
deriving DecidableEq, Repr

/-- The product_detail handler of src/app.py lines 59-66: first product
with the requested id, or the 404 page. The framework default status for a
plain render is 200. -/
def product_detail (pid : Nat) : PageBody × Nat :=
  match PRODUCTS.find? (fun p => p.id == pid) with
  | some p => (.productPage p, 200)
  | none => (.notFoundPage, 404)

/-- The get_products handler in state-passing form: the handler reads the
product list and returns it unchanged alongside the response (the source
builds the filtered list with a comprehension and never assigns to
PRODUCTS). -/
def get_products_st (prods : List Product) (category : Option String) :
    ApiResponse × List Product :=
  let filtered :=
    if truthy category then
      prods.filter fun p => pyLower p.category == pyLower (category.getD "")
    else prods
  ({ status := "success", count := filtered.length, data := filtered }, prods)

/-- The product_detail handler in state-passing form. -/
def product_detail_st (prods : List Product) (pid : Nat) :
    (PageBody × Nat) × List Product :=
  (match prods.find? (fun p => p.id == pid) with
   | some p => (.productPage p, 200)
   | none => (.notFoundPage, 404), prods)

/-- The index handler of src/app.py lines 39-42 in state-passing form. -/
def index_st (prods : List Product) : (PageBody × Nat) × List Product :=
  ((.indexPage prods, 200), prods)

end FlaskApp

namespace Filters

/-- The truncate_text filter of src/chapters/chapter2/examples/jinja2-example.py
lines 25-29: text unchanged when it fits, otherwise the first n characters
followed by an ellipsis; the slice of the first n characters is code-point
slicing, embedded as a take on the character list. -/
def truncate_text (text : String) (n : Nat := 100) : String :=
  if text.length ≤ n then text else String.mk (text.data.take n) ++ "..."

/-- Leap-year rule of the Gregorian calendar, as the Python datetime module
uses it. -/
def isLeapYear (y : Nat) : Bool :=
  (y % 4 == 0 && y % 100 != 0) || y % 400 == 0

/-- Days in a month, as the Python datetime module validates them. -/
def daysInMonth (y m : Nat) : Nat :=
  if m = 2 then (if isLeapYear y then 29 else 28)
  else if m = 4 ∨ m = 6 ∨ m = 9 ∨ m = 11 then 30
  else 31

/-- Full month name, as the strftime month-name directive produces it. -/
def monthName : Nat → String
  | 1 => "January"
  | 2 => "February"
  | 3 => "March"
  | 4 => "April"
  | 5 => "May"
  | 6 => "June"
  | 7 => "July"
  | 8 => "August"
  | 9 => "September"
  | 10 => "October"
  | 11 => "November"
  | 12 => "December"
  | _ => ""

/-- A calendar date (year, month, day). -/
structure DateYMD where
  y : Nat
  m : Nat
  d : Nat
deriving DecidableEq, Repr

/-- Numeric value of a decimal digit character. -/
def digitVal (c : Char) : Nat := c.toNat - '0'.toNat

/-- Two decimal digit characters whose value is at most the given bound. -/
def twoDigitLE (a b : Char) (hi : Nat) : Bool :=
  a.isDigit && b.isDigit && (digitVal a * 10 + digitVal b ≤ hi)

/-- Optional fractional-second part of an ISO-8601 time: empty, or a point
followed by exactly three or exactly six digits. -/
def validFracPart : List Char → Bool
  | [] => true
  | ['.', a, b, c] => a.isDigit && b.isDigit && c.isDigit
  | ['.', a, b, c, d, e, f] =>
      a.isDigit && b.isDigit && c.isDigit && d.isDigit && e.isDigit && f.isDigit
  | _ => false

/-- Optional seconds (with optional fraction) of an ISO-8601 time. -/
def validSecFrac : List Char → Bool
  | [] => true
  | ':' :: s1 :: s2 :: rest => twoDigitLE s1 s2 59 && validFracPart rest
  | _ => false

/-- The time-of-day portion of an ISO-8601 timestamp: two-digit hours,
optionally colon and two-digit minutes, optionally seconds and a fraction,
with the ranges the time constructor enforces. -/
def validTimeCore : List Char → Bool
  | [h1, h2] => twoDigitLE h1 h2 23
  | h1 :: h2 :: ':' :: m1 :: m2 :: rest =>
      twoDigitLE h1 h2 23 && twoDigitLE m1 m2 59 && validSecFrac rest
  | _ => false

/-- A UTC-offset string after its sign: HH:MM, HH:MM:SS or
HH:MM:SS.ffffff, with the whole offset strictly below twenty-four hours
as the timezone constructor enforces. -/
def validTz : List Char → Bool
  | [h1, h2, ':', m1, m2] =>
      h1.isDigit && h2.isDigit && m1.isDigit && m2.isDigit &&
        ((digitVal h1 * 10 + digitVal h2) * 3600 + (digitVal m1 * 10 + digitVal m2) * 60 < 86400)
  | [h1, h2, ':', m1, m2, ':', s1, s2] =>
      h1.isDigit && h2.isDigit && m1.isDigit && m2.isDigit && s1.isDigit && s2.isDigit &&
        ((digitVal h1 * 10 + digitVal h2) * 3600 + (digitVal m1 * 10 + digitVal m2) * 60 +
          (digitVal s1 * 10 + digitVal s2) < 86400)
  | [h1, h2, ':', m1, m2, ':', s1, s2, '.', f1, f2, f3, f4, f5, f6] =>
      h1.isDigit && h2.isDigit && m1.isDigit && m2.isDigit && s1.isDigit && s2.isDigit &&
        f1.isDigit && f2.isDigit && f3.isDigit && f4.isDigit && f5.isDigit && f6.isDigit &&
        ((digitVal h1 * 10 + digitVal h2) * 3600 + (digitVal m1 * 10 + digitVal m2) * 60 +
          (digitVal s1 * 10 + digitVal s2) < 86400)
  | _ => false

/-- Split a time string at its UTC-offset sign the way fromisoformat does:
at the first minus sign when one occurs, otherwise at the first plus sign,
otherwise no offset. -/
def splitTz (l : List Char) : List Char × Option (List Char) :=
  match l.indexOf? '-' with
  | some i => (l.take i, some (l.drop (i + 1)))
  | none =>
      match l.indexOf? '+' with
      | some i => (l.take i, some (l.drop (i + 1)))
      | none => (l, none)

/-- A full ISO-8601 time-of-day with optional UTC offset. -/
def validTimeTz (l : List Char) : Bool :=
  match splitTz l with
  | (tstr, none) => validTimeCore tstr
  | (tstr, some z) => validTimeCore tstr && validTz z

/-- Modelled from the spec: the ISO-8601 parsing step of the date filter
(datetime.fromisoformat is a library routine outside the repository
sources). The model follows the documented grammar that routine accepts in
the interpreter versions for which the Z-replacement of src/app.py line 77
is needed: a YYYY-MM-DD date (month 1-12, day within the month, year at
least 1), optionally followed by a one-character separator and a
time-of-day with optional fractional seconds and optional UTC offset such
as the +00:00 the replacement produces. Only the date is returned, since
the filter formats nothing else. -/
def isoParse (s : String) : Option DateYMD :=
  match s.data with
  | y1 :: y2 :: y3 :: y4 :: '-' :: m1 :: m2 :: '-' :: d1 :: d2 :: rest =>
      if (y1.isDigit ∧ y2.isDigit ∧ y3.isDigit ∧ y4.isDigit) ∧
          (m1.isDigit ∧ m2.isDigit) ∧ (d1.isDigit ∧ d2.isDigit) then
        let y := ((digitVal y1 * 10 + digitVal y2) * 10 + digitVal y3) * 10 + digitVal y4
        let m := digitVal m1 * 10 + digitVal m2
        let d := digitVal d1 * 10 + digitVal d2
        if 1 ≤ y ∧ 1 ≤ m ∧ m ≤ 12 ∧ 1 ≤ d ∧ d ≤ daysInMonth y m then
          match rest with
          | [] => some ⟨y, m, d⟩
          | _ :: timeRest => if validTimeTz timeRest then some ⟨y, m, d⟩ else none
        else none
      else none
  | _ => none

/-- Two-digit zero-padded decimal rendering of a number below one hundred. -/
def two_digit (n : Nat) : String :=
  String.mk [Nat.digitChar (n / 10 % 10), Nat.digitChar (n % 10)]

/-- Modelled from the spec: strftime with the month-name, zero-padded day
and year directives used at src/app.py line 78. -/
def strftime_BdY (dt : DateYMD) : String :=
  monthName dt.m ++ " " ++ two_digit dt.d ++ ", " ++ toString dt.y

/-- The replace step of src/app.py line 77: every occurrence of the letter
Z replaced by a numeric UTC offset. -/
def replaceZ : List Char → List Char
  | [] => []
  | 'Z' :: rest => '+' :: '0' :: '0' :: ':' :: '0' :: '0' :: replaceZ rest
  | c :: rest => c :: replaceZ rest

/-- The date_format_filter of src/app.py lines 73-80: try ISO parsing after
the Z replacement and format on success; the bare except returns the input
unchanged on any failure. -/
def date_format_filter (date_str : String) : String :=
  match isoParse (String.mk (replaceZ date_str.data)) with
  | some dt => strftime_BdY dt
  | none => date_str

/-- Little-endian decimal digit characters of a number, fuel-driven so the
definition reduces structurally; the fuel argument always suffices because
each step divides the number by ten. -/
def ldAux : Nat → Nat → List Char
  | 0, _ => []
  | fuel + 1, n => if n = 0 then [] else Nat.digitChar (n % 10) :: ldAux fuel (n / 10)

/-- Little-endian decimal digit characters, with zero rendered as one digit. -/
def littleDigits (n : Nat) : List Char :=
  if n = 0 then ['0'] else ldAux n n

/-- Insert a comma after every three digits of a little-endian digit list,
the grouping that the format specification with the comma option performs. -/
def group3 : List Char → List Char
  | a :: b :: c :: d :: rest => a :: b :: c :: ',' :: group3 (d :: rest)
  | l => l

/-- Decimal rendering of a number with comma thousands grouping. -/
def intComma (n : Nat) : String :=
  String.mk (group3 (littleDigits n)).reverse

/-- Round-half-even of one hundred times the value, the rounding the
2-decimal fixed-point format specification performs; stated for
non-negative values via the numerator and denominator of the scaled
rational. -/
def centsOf (v : ℚ) : Nat :=
  let q := v * 100
  let n := q.num.toNat
  let d := q.den
  let w := n / d
  let r := n % d
  if 2 * r < d then w else if d < 2 * r then w + 1 else if w % 2 = 0 then w else w + 1

/-- The currency filter registered in src/app.py lines 68-71 and
src/chapters/chapter2/examples/jinja2-example.py lines 15-17: the dollar
sign followed by the value with comma thousands grouping and exactly two
decimals. The Python format specification is a language builtin, modelled
here on rationals for the non-negative values the claim covers. -/
def format_currency (v : ℚ) : String :=
  let c := centsOf v
  "$" ++ intComma (c / 100) ++ "." ++ two_digit (c % 100)

/-- Checker for a little-endian comma-grouped digit list: groups of exactly
three digits separated by commas, with a final most-significant group of
one to three digits. -/
def goodGroups : List Char → Bool
  | [] => false
  | [a] => a.isDigit
  | [a, b] => a.isDigit && b.isDigit
  | [a, b, c] => a.isDigit && b.isDigit && c.isDigit
  | a :: b :: c :: ',' :: rest => a.isDigit && b.isDigit && c.isDigit && goodGroups rest
  | _ => false

end Filters

namespace TemplateGen

theorem render_append (p : Policy) (ctx : Ctx) (clk : String) (l₁ l₂ : List Node) :
    render p ctx clk (l₁ ++ l₂) = combineResults (render p ctx clk l₁) (render p ctx clk l₂) := by
  induction l₁ with
  | nil =>
      cases h2 : render p ctx clk l₂ <;>
        simp [render, combineResults, h2]
  | cons n rest ih =>
      cases hn : renderNode p ctx clk n <;>
        cases hr : render p ctx clk rest <;>
          cases h2 : render p ctx clk l₂ <;>
            simp [render, combineResults, hn, hr, h2, ih, String.append_assoc]

theorem delimFree_append {a b : List Char} (ha : delimFree a = true) (hb : delimFree b = true) :
    delimFree (a ++ b) = true := by
  simp only [delimFree, List.all_append, Bool.and_eq_true]
  exact ⟨ha, hb⟩

theorem delimFree_noResidual {l : List Char} (h : delimFree l = true) : noResidual l := by
  have hmem : ∀ c ∈ l, ¬(c = '{' ∨ c = '}' ∨ c = '%') := by
    intro c hc
    have := List.all_eq_true.mp h c hc
    simp only [Bool.or_eq_true, beq_iff_eq, Bool.not_eq_true'] at this
    intro hor
    rcases hor with h1 | h1 | h1 <;> simp [h1] at this
  refine ⟨?_, ?_, ?_, ?_⟩
  · rintro ⟨s, t, rfl⟩
    exact hmem '{' (by simp) (Or.inl rfl)
  · rintro ⟨s, t, rfl⟩
    exact hmem '}' (by simp) (Or.inr (Or.inl rfl))
  · rintro ⟨s, t, rfl⟩
    exact hmem '{' (by simp) (Or.inl rfl)
  · rintro ⟨s, t, rfl⟩
    exact hmem '%' (by simp) (Or.inr (Or.inr rfl))

theorem renderChild_append (ov : String → Option String) (l₁ l₂ : List Item) :
    renderChild ov (l₁ ++ l₂) = renderChild ov l₁ ++ renderChild ov l₂ := by
  induction l₁ with
  | nil => simp [renderChild]
  | cons i rest ih =>
      cases i <;> simp [renderChild, ih, String.append_assoc]

/-- Claim C1: for every template containing the placeholder node for `x` and
every context binding `x` to `"V"`, rendering substitutes `"V"` exactly where
the placeholder stood; the output contains `"V"`, and when the surrounding
rendered text is free of delimiter characters no residual template syntax
remains in the output. -/
theorem C1_substitution (p : Policy) (pre post : List Node) (ctx : Ctx) (clk a b : String)
    (hx : lookupVar ctx "x" = some "V")
    (ha : render p ctx clk pre = .ok a)
    (hb : render p ctx clk post = .ok b) :
    render p ctx clk (pre ++ Node.var "x" :: post) = .ok (a ++ "V" ++ b) ∧
      occursIn "V".data (a ++ "V" ++ b).data ∧
      (delimFree a.data = true → delimFree b.data = true →
        noResidual (a ++ "V" ++ b).data) := by
  refine ⟨?_, ?_, ?_⟩
  · have h := render_append p ctx clk pre (Node.var "x" :: post)
    rw [ha] at h
    have hmid : render p ctx clk (Node.var "x" :: post) = .ok ("V" ++ b) := by
      simp [render, renderNode, hx, hb]
    rw [hmid] at h
    simpa [combineResults, String.append_assoc] using h
  · refine ⟨a.data, b.data, ?_⟩
    simp
  · intro hda hdb
    have hV : delimFree "V".data = true := by decide
    have : delimFree ((a ++ "V" ++ b).data) = true := by
      simpa using delimFree_append (delimFree_append hda hV) hdb
    exact delimFree_noResidual this

theorem C1_substitution_witness :
    render .lenient [("x", "V")] "" ([Node.text "Hello "] ++ Node.var "x" :: [Node.text "!"]) =
        .ok ("Hello " ++ "V" ++ "!") ∧
      occursIn "V".data (("Hello " ++ "V" ++ "!").data) ∧
      noResidual (("Hello " ++ "V" ++ "!").data) := by
  have h := C1_substitution .lenient [Node.text "Hello "] [Node.text "!"]
    [("x", "V")] "" "Hello " "!" (by decide) (by simp [render, renderNode]) (by simp [render, renderNode])
  exact ⟨h.1, h.2.1, h.2.2 (by decide) (by decide)⟩

/-- Claim C2: rendering a reference to an absent variable follows the policy
fixed at configuration time: the strict policy yields the undefined-variable
error, the lenient policy yields the empty substitution, and any successful
output of rendering the lone placeholder carries no partially substituted
placeholder syntax. -/
theorem C2_missing_variable_policy (p : Policy) (clk : String) :
    (p = .strict →
      render p [] clk [Node.var "missing"] = .error (.undefinedVariable "missing")) ∧
    (p = .lenient → render p [] clk [Node.var "missing"] = .ok "") ∧
    (∀ s, render p [] clk [Node.var "missing"] = .ok s → noResidual s.data) := by
  cases p with
  | strict =>
      refine ⟨fun _ => rfl, fun h => Policy.noConfusion h, ?_⟩
      intro s hs
      simp [render, renderNode, lookupVar] at hs
  | lenient =>
      refine ⟨fun h => Policy.noConfusion h, fun _ => rfl, ?_⟩
      intro s hs
      have hs' : s = "" := by
        simpa [render, renderNode, lookupVar] using hs.symm
      subst hs'
      exact delimFree_noResidual (by decide)

theorem C2_missing_variable_policy_witness :
    render .lenient [] "" [Node.var "missing"] = .ok "" ∧ noResidual ("" : String).data := by
  have h := C2_missing_variable_policy .lenient ""
  exact ⟨h.2.1 rfl, h.2.2 "" (h.2.1 rfl)⟩

/-- Claim C3: rendering a child template against a parent emits, at each
block position, the child override when one exists and the parent fallback
content verbatim otherwise (child-wins resolution), leaving the surrounding
parent items untouched. -/
theorem C3_inheritance_child_wins (ov : String → Option String) (pre post : List Item)
    (n d : String) :
    renderChild ov (pre ++ Item.block n d :: post) =
        renderChild ov pre ++ (ov n).getD d ++ renderChild ov post ∧
      (∀ c, ov n = some c →
        renderChild ov (pre ++ Item.block n d :: post) =
          renderChild ov pre ++ c ++ renderChild ov post) ∧
      (ov n = none →
        renderChild ov (pre ++ Item.block n d :: post) =
          renderChild ov pre ++ d ++ renderChild ov post) := by
  have hmain : renderChild ov (pre ++ Item.block n d :: post) =
      renderChild ov pre ++ (ov n).getD d ++ renderChild ov post := by
    rw [renderChild_append]
    simp [renderChild, resolveBlock, String.append_assoc]
  refine ⟨hmain, ?_, ?_⟩
  · intro c hc
    rw [hmain, hc]
    rfl
  · intro hc
    rw [hmain, hc]
    rfl

theorem C3_inheritance_child_wins_witness :
    renderChild (fun s => if s = "content" then some "CHILD" else none)
        ([Item.block "header" "PARENT-HEADER"] ++ Item.block "content" "PARENT-CONTENT" :: []) =
      renderChild (fun s => if s = "content" then some "CHILD" else none)
          [Item.block "header" "PARENT-HEADER"] ++ "CHILD" ++ "" := by
  have h := C3_inheritance_child_wins (fun s => if s = "content" then some "CHILD" else none)
    [Item.block "header" "PARENT-HEADER"] [] "content" "PARENT-CONTENT"
  simpa [renderChild] using h.2.1 "CHILD" (by simp)

/-- Claim C5: rendering is deterministic: two render calls with the same
template and equal contexts produce identical output whenever the wall-clock
value agrees on templates that consult the clock; in particular templates
that never consult the clock render identically under any two clock
values. -/
theorem C5_deterministic (p : Policy) (t : List Node) (c₁ c₂ : Ctx) (clk₁ clk₂ : String)
    (hctx : c₁ = c₂) (hclk : Node.clock ∈ t → clk₁ = clk₂) :
    render p c₁ clk₁ t = render p c₂ clk₂ t := by
  subst hctx
  induction t with
  | nil => rfl
  | cons n rest ih =>
      have hrest := ih (fun hm => hclk (List.mem_cons_of_mem _ hm))
      have hnode : renderNode p c₁ clk₁ n = renderNode p c₁ clk₂ n := by
        cases n with
        | text s => rfl
        | var v => rfl
        | clock => simp [renderNode, hclk (List.mem_cons_self _ _)]
      simp [render, hnode, hrest]

theorem C5_deterministic_witness :
    render .lenient [("u", "alice")] "Mon" [Node.text "user: ", Node.var "u"] =
      render .lenient [("u", "alice")] "Tue" [Node.text "user: ", Node.var "u"] := by
  exact C5_deterministic .lenient [Node.text "user: ", Node.var "u"]
    [("u", "alice")] [("u", "alice")] "Mon" "Tue" rfl (by decide)

end TemplateGen

namespace FlaskApp

theorem find?_eq_some_split {α : Type} (f : α → Bool) (l : List α) (a : α)
    (h : l.find? f = some a) :
    f a = true ∧ ∃ s t, l = s ++ a :: t ∧ ∀ x ∈ s, f x = false := by
  induction l with
  | nil => simp [List.find?] at h
  | cons b rest ih =>
      cases hb : f b with
      | true =>
          rw [List.find?_cons_of_pos _ hb] at h
          obtain rfl : b = a := by simpa using h
          exact ⟨hb, [], rest, rfl, by intro x hx; simp at hx⟩
      | false =>
          rw [List.find?_cons_of_neg _ (by simp [hb])] at h
          obtain ⟨hfa, s, t, hl, hs⟩ := ih h
          refine ⟨hfa, b :: s, t, by rw [hl, List.cons_append], ?_⟩
          intro x hx
          rcases List.mem_cons.mp hx with rfl | hx
          · exact hb
          · exact hs x hx

/-- Claim C6, counterexample: with the category parameter supplied as the
empty string, the handler returns the full product list, not the products
whose category equals the parameter case-insensitively (there are none),
because Python truthiness treats a supplied empty parameter like an absent
one. -/
theorem C6_empty_category_counterexample :
    (get_products (some "")).data = PRODUCTS ∧
      PRODUCTS.filter (fun p => pyLower p.category == pyLower "") = [] ∧
      (get_products (some "")).data ≠
        PRODUCTS.filter (fun p => pyLower p.category == pyLower "") := by
  refine ⟨rfl, rfl, ?_⟩
  intro h
  simp [get_products, truthy, PRODUCTS, pyLower] at h

/-- Claim C6 (amended): when a supplied category parameter is non-empty the
returned data is exactly the products whose category equals the parameter
case-insensitively, in their original order, and count is the length of
data; when the parameter is absent (or supplied empty) the data is the full
product list and count is its length. -/
theorem C6_get_products (cat : String) (hne : cat ≠ "") :
    (get_products (some cat)).data =
        PRODUCTS.filter (fun p => pyLower p.category == pyLower cat) ∧
      List.Sublist (get_products (some cat)).data PRODUCTS ∧
      (get_products (some cat)).count = (get_products (some cat)).data.length ∧
      (get_products none).data = PRODUCTS ∧
      (get_products none).count = PRODUCTS.length := by
  have ht : truthy (some cat) = true := by
    simp [truthy, hne]
  have hdata : (get_products (some cat)).data =
      PRODUCTS.filter (fun p => pyLower p.category == pyLower cat) := by
    simp [get_products, ht]
  refine ⟨hdata, ?_, rfl, rfl, rfl⟩
  rw [hdata]
  exact List.filter_sublist PRODUCTS

theorem C6_get_products_witness :
    (get_products (some "electronics")).data =
      PRODUCTS.filter (fun p => pyLower p.category == pyLower "electronics") :=
  (C6_get_products "electronics" (by decide)).1

/-- Claim C7: the detail handler returns the rendered page of the first
product carrying the requested id with status 200 when one exists, returns
the not-found page with status 404 when none does, and no other outcome is
possible. -/
theorem C7_product_detail (pid : Nat) :
    ((∃ p ∈ PRODUCTS, p.id = pid) →
      ∃ p s t, product_detail pid = (.productPage p, 200) ∧ p.id = pid ∧
        PRODUCTS = s ++ p :: t ∧ ∀ q ∈ s, q.id ≠ pid) ∧
    ((∀ p ∈ PRODUCTS, p.id ≠ pid) → product_detail pid = (.notFoundPage, 404)) ∧
    ((∃ p ∈ PRODUCTS, (product_detail pid).1 = .productPage p ∧ p.id = pid ∧
        (product_detail pid).2 = 200) ∨
      product_detail pid = (.notFoundPage, 404)) := by
  cases hf : PRODUCTS.find? (fun p => p.id == pid) with
  | none =>
      have hnone : ∀ p ∈ PRODUCTS, ¬(p.id == pid) = true := by
        intro p hp
        simp [List.find?_eq_none.mp hf p hp]
      have hpd : product_detail pid = (.notFoundPage, 404) := by
        simp [product_detail, hf]
      refine ⟨?_, fun _ => hpd, Or.inr hpd⟩
      rintro ⟨p, hp, rfl⟩
      exact absurd (by simp) (hnone p hp)
  | some p =>
      obtain ⟨hfp, s, t, hl, hs⟩ := find?_eq_some_split _ _ _ hf
      have hid : p.id = pid := by simpa using hfp
      have hpd : product_detail pid = (.productPage p, 200) := by
        simp [product_detail, hf]
      have hmem : p ∈ PRODUCTS := by
        rw [hl]
        simp
      refine ⟨?_, ?_, Or.inl ⟨p, hmem, by rw [hpd], hid, by rw [hpd]⟩⟩
      · intro _
        refine ⟨p, s, t, hpd, hid, hl, ?_⟩
        intro q hq hqid
        have := hs q hq
        simp [hqid] at this
      · intro hall
        exact absurd hid (hall p hmem)

theorem C7_product_detail_witness :
    product_detail 99 = (PageBody.notFoundPage, 404) :=
  (C7_product_detail 99).2.1 (by decide)

/-- Claim C8: the handlers never mutate the shared product list: in
state-passing form the listing, filtering and detail handlers all return
the product list exactly as received, and the category filter builds a new
sublist of the input rather than reordering or changing it. -/
theorem C8_handlers_preserve_products (prods : List Product) (cat : Option String) (pid : Nat) :
    (get_products_st prods cat).2 = prods ∧
      (product_detail_st prods pid).2 = prods ∧
      (index_st prods).2 = prods ∧
      List.Sublist (get_products_st prods cat).1.data prods := by
  refine ⟨rfl, rfl, rfl, ?_⟩
  cases ht : truthy cat with
  | true =>
      simp only [get_products_st, ht, if_true]
      exact List.filter_sublist prods
  | false =>
      simp only [get_products_st, ht, if_false]
      exact List.Sublist.refl prods

end FlaskApp

namespace Filters

theorem data_append : ∀ s t : String, (s ++ t).data = s.data ++ t.data
  | ⟨_⟩, ⟨_⟩ => rfl

/-- Claim C10: truncate_text returns the text unchanged when it fits in n
characters and otherwise the first n characters followed by the ellipsis;
the result never exceeds n + 3 characters and agrees with the original text
on the first min n (length text) characters. -/
theorem C10_truncate_text (text : String) (n : Nat) :
    (text.length ≤ n → truncate_text text n = text) ∧
      (n < text.length →
        truncate_text text n = String.mk (text.data.take n) ++ "...") ∧
      (truncate_text text n).length ≤ n + 3 ∧
      (truncate_text text n).data.take (min n text.length) =
        text.data.take (min n text.length) := by
  by_cases h : text.length ≤ n
  · have ht : truncate_text text n = text := by
      simp [truncate_text, h]
    refine ⟨fun _ => ht, fun hlt => absurd h (by omega), ?_, by rw [ht]⟩
    rw [ht]
    omega
  · push_neg at h
    have ht : truncate_text text n = String.mk (text.data.take n) ++ "..." := by
      simp [truncate_text]
      omega
    have hdata : (truncate_text text n).data = text.data.take n ++ "...".data := by
      rw [ht, data_append]
    have hmin : min n text.length = n := by omega
    refine ⟨fun hle => absurd hle (by omega), fun _ => ht, ?_, ?_⟩
    · have : (truncate_text text n).length = (text.data.take n).length + 3 := by
        have hlen : (truncate_text text n).length = (truncate_text text n).data.length := rfl
        rw [hlen, hdata, List.length_append]
        rfl
      rw [this, List.length_take]
      omega
    · rw [hdata, hmin]
      have hlen : (text.data.take n).length = n := by
        rw [List.length_take]
        have : text.length = text.data.length := rfl
        omega
      calc (text.data.take n ++ "...".data).take n
          = (text.data.take n ++ "...".data).take (text.data.take n).length := by rw [hlen]
        _ = text.data.take n := List.take_left _ _
        _ = text.data.take n := rfl

theorem C10_truncate_text_witness :
    truncate_text "hello" 3 = String.mk ("hello".data.take 3) ++ "..." ∧
      (truncate_text "hello" 3).length ≤ 3 + 3 := by
  have h := C10_truncate_text "hello" 3
  exact ⟨h.2.1 (by decide), h.2.2.1⟩

/-- Claim C9: the date filter is total on strings: when ISO parsing of the
Z-replaced input succeeds the result is the long-format date, otherwise the
input is returned unchanged; one of the two outcomes always occurs, so no
exception escapes to the caller. -/
theorem C9_date_format_total (s : String) :
    (∀ dt, isoParse (String.mk (replaceZ s.data)) = some dt →
      date_format_filter s = strftime_BdY dt) ∧
      (isoParse (String.mk (replaceZ s.data)) = none → date_format_filter s = s) ∧
      (date_format_filter s = s ∨
        ∃ dt, isoParse (String.mk (replaceZ s.data)) = some dt ∧
          date_format_filter s = strftime_BdY dt) := by
  cases hp : isoParse (String.mk (replaceZ s.data)) with
  | none =>
      have hd : date_format_filter s = s := by
        simp [date_format_filter, hp]
      exact ⟨fun dt hdt => by simp [hp] at hdt, fun _ => hd, Or.inl hd⟩
  | some dt =>
      have hd : date_format_filter s = strftime_BdY dt := by
        simp [date_format_filter, hp]
      refine ⟨fun dt' hdt' => ?_, fun hn => by simp at hn, Or.inr ⟨dt, rfl, hd⟩⟩
      have hdd : dt = dt' := Option.some.inj hdt'
      rw [← hdd]
      exact hd

theorem C9_date_format_total_witness :
    date_format_filter "2024-01-15T10:30:00Z" = strftime_BdY ⟨2024, 1, 15⟩ :=
  (C9_date_format_total "2024-01-15T10:30:00Z").1 ⟨2024, 1, 15⟩ (by decide)

theorem digitChar_isDigit {m : Nat} (h : m < 10) : (Nat.digitChar m).isDigit = true := by
  interval_cases m <;> decide

theorem ldAux_digits (fuel : Nat) :
    ∀ n, ∀ c ∈ ldAux fuel n, c.isDigit = true := by
  induction fuel with
  | zero =>
      intro n c hc
      simp [ldAux] at hc
  | succ fuel ih =>
      intro n c hc
      by_cases hn : n = 0
      · simp [ldAux, hn] at hc
      · rw [ldAux, if_neg hn] at hc
        rcases List.mem_cons.mp hc with rfl | hc
        · exact digitChar_isDigit (Nat.mod_lt _ (by norm_num))
        · exact ih _ c hc

theorem littleDigits_digits (n : Nat) : ∀ c ∈ littleDigits n, c.isDigit = true := by
  intro c hc
  by_cases hn : n = 0
  · simp [littleDigits, hn] at hc
    simp [hc]
  · rw [littleDigits, if_neg hn] at hc
    exact ldAux_digits n n c hc

theorem littleDigits_ne_nil (n : Nat) : littleDigits n ≠ [] := by
  by_cases hn : n = 0
  · simp [littleDigits, hn]
  · rw [littleDigits, if_neg hn]
    cases n with
    | zero => exact absurd rfl hn
    | succ m =>
        rw [ldAux, if_neg hn]
        simp

theorem group3_cons_ne_nil (x : Char) (l : List Char) : group3 (x :: l) ≠ [] := by
  match l with
  | [] => simp [group3]
  | [b] => simp [group3]
  | [b, c] => simp [group3]
  | b :: c :: d :: rest => simp [group3]

theorem goodGroups_group3 :
    ∀ k (l : List Char), l.length ≤ k → l ≠ [] → (∀ c ∈ l, c.isDigit = true) →
      goodGroups (group3 l) = true := by
  intro k
  induction k with
  | zero =>
      intro l hl hne _
      cases l with
      | nil => exact absurd rfl hne
      | cons a rest => simp at hl
  | succ k ih =>
      intro l hl hne hd
      match l with
      | [a] =>
          simp [group3, goodGroups, hd a (by simp)]
      | [a, b] =>
          simp [group3, goodGroups, hd a (by simp), hd b (by simp)]
      | [a, b, c] =>
          simp [group3, goodGroups, hd a (by simp), hd b (by simp), hd c (by simp)]
      | a :: b :: c :: d :: rest =>
          have h1 : group3 (a :: b :: c :: d :: rest) =
              a :: b :: c :: ',' :: group3 (d :: rest) := rfl
          rw [h1]
          have h2 : goodGroups (a :: b :: c :: ',' :: group3 (d :: rest)) =
              (a.isDigit && b.isDigit && c.isDigit && goodGroups (group3 (d :: rest))) := by
            cases hx : group3 (d :: rest) with
            | nil => exact absurd hx (group3_cons_ne_nil d rest)
            | cons y ys => rfl
          rw [h2]
          simp only [Bool.and_eq_true, hd a (by simp), hd b (by simp), hd c (by simp),
            true_and]
          refine ih (d :: rest) ?_ (by simp) ?_
          · simp at hl ⊢
            omega
          · intro x hx
            exact hd x (by simp [List.mem_cons] at hx ⊢; tauto)

/-- Claim C4: the currency filter maps 1234.5 to the exact string with the
dollar sign, comma grouping and two decimals; for every non-negative value
the output is the dollar sign, a comma-grouped digit string, a point and
exactly two decimal digit characters. -/
theorem C4_currency (v : ℚ) (hv : 0 ≤ v) :
    format_currency (2469 / 2 : ℚ) = "$1,234.50" ∧
      ∃ g f, (format_currency v).data = '$' :: (g ++ '.' :: f) ∧
        goodGroups g.reverse = true ∧ f.length = 2 ∧ ∀ c ∈ f, c.isDigit = true := by
  have hc : centsOf (2469 / 2 : ℚ) = 123450 := by
    have hq : (2469 / 2 : ℚ) * 100 = (123450 : ℚ) := by norm_num
    simp only [centsOf, hq, Rat.num_ofNat, Rat.den_ofNat, Int.toNat_ofNat]
    decide
  have hconc : format_currency (2469 / 2 : ℚ) = "$1,234.50" := by
    have hd1 : (123450 : Nat) / 100 = 1234 := by norm_num
    have hd2 : (123450 : Nat) % 100 = 50 := by norm_num
    simp only [format_currency, hc, hd1, hd2]
    decide
  refine ⟨hconc, ?_⟩
  refine ⟨(intComma (centsOf v / 100)).data,
    [Nat.digitChar (centsOf v % 100 / 10 % 10), Nat.digitChar (centsOf v % 100 % 10)],
    ?_, ?_, rfl, ?_⟩
  · show ("$" ++ intComma (centsOf v / 100) ++ "." ++ two_digit (centsOf v % 100)).data = _
    rw [data_append, data_append, data_append]
    simp [two_digit]
  · show goodGroups (String.mk (group3 (littleDigits (centsOf v / 100))).reverse).data.reverse = true
    rw [show (String.mk (group3 (littleDigits (centsOf v / 100))).reverse).data =
      (group3 (littleDigits (centsOf v / 100))).reverse from rfl, List.reverse_reverse]
    exact goodGroups_group3 (littleDigits (centsOf v / 100)).length _ le_rfl
      (littleDigits_ne_nil _) (littleDigits_digits _)
  · intro c hc
    rcases List.mem_cons.mp hc with rfl | hc
    · exact digitChar_isDigit (Nat.mod_lt _ (by norm_num))
    · rcases List.mem_cons.mp hc with rfl | hc
      · exact digitChar_isDigit (Nat.mod_lt _ (by norm_num))
      · simp at hc

theorem C4_currency_witness :
    format_currency (2469 / 2 : ℚ) = "$1,234.50" ∧
      ∃ g f, (format_currency (0 : ℚ)).data = '$' :: (g ++ '.' :: f) ∧
        goodGroups g.reverse = true ∧ f.length = 2 ∧ ∀ c ∈ f, c.isDigit = true :=
  C4_currency 0 (by norm_num)

end Filters
